import Mathlib

set_option maxRecDepth 4000

/-!
Verification of the serenity-oauth library (a Discord OAuth2 client helper
crate) against its natural-language specification.

The Rust sources are shallowly embedded: each Rust item is translated into a
Lean definition of the same name where possible.  Rust `u64` values are
modelled as `Nat` (no arithmetic overflow occurs anywhere in the library; the
only operations on them are formatting and parsing, where the `u64` bound is
made explicit when it matters).  Rust `String`s are modelled as Lean `String`s
with explicit UTF-8 byte conversion where the code operates on bytes.
External crate functions that the sources call (`percent_encoding`,
`serde_urlencoded`, `serde_json`) are modelled by executable Lean functions
following those crates' documented behaviour.
-/

/-- Constant from src/constants.rs: the base authorization URI. -/
def BASE_AUTHORIZE_URI : String := "https://discordapp.com/api/oauth2/authorize"

/-- Constant from src/constants.rs: the token URI. -/
def BASE_TOKEN_URI : String := "https://discordapp.com/api/oauth2/token"

/-- Constant from src/constants.rs: the revocation URI. -/
def BASE_REVOKE_URI : String := "https://discordapp.com/api/oauth2/revoke"

/-- The `Scope` enum from src/scope.rs. -/
inductive Scope where
  | Bot
  | Connections
  | Email
  | Identify
  | Guilds
  | GuildsJoin
  | GdmJoin
  | MessagesRead
  | Rpc
  | RpcApi
  | RpcNotificationsRead
  | WebhookIncoming
  | Other (inner : String)
deriving DecidableEq

/-- The `Display` implementation for `Scope` from src/scope.rs: the canonical
string of each scope variant, with `Other` passing its payload through
verbatim. -/
def Scope.display : Scope → String
  | .Bot => "bot"
  | .Connections => "connections"
  | .Email => "email"
  | .Identify => "identify"
  | .Guilds => "guilds"
  | .GuildsJoin => "guilds.join"
  | .GdmJoin => "gdm.join"
  | .MessagesRead => "messages.read"
  | .Rpc => "rpc"
  | .RpcApi => "rpc.api"
  | .RpcNotificationsRead => "rpc.notifications.read"
  | .WebhookIncoming => "webhook.incoming"
  | .Other inner => inner

/-- The external `Permissions` type (re-exported from the serenity model
crate): a wrapper around a `u64` bitmask whose `bits()` accessor returns the
raw value. -/
structure Permissions where
  bits : Nat
deriving DecidableEq

/-- Decimal digit character: models how Rust's integer `Display` renders a
single decimal digit. -/
def decChar (d : Nat) : Char := Char.ofNat (48 + d)

/-- Fuel-driven core of the decimal rendering: peels one decimal digit per
step, least significant last.  The fuel only bounds the recursion depth; any
fuel above the argument gives the same result. -/
def natToDecimalCore : Nat → Nat → List Char
  | 0, _ => []
  | fuel + 1, n =>
    if n < 10 then [decChar n]
    else natToDecimalCore fuel (n / 10) ++ [decChar (n % 10)]

/-- Decimal rendering of an unsigned integer, most significant digit first:
models Rust's `u64` `Display` implementation as used by `format!("{}", n)`. -/
def natToDecimal (n : Nat) : String :=
  String.mk (natToDecimalCore (n + 1) n)

/-- UTF-8 encoding of a single character, as Rust's `str::as_bytes` exposes
it: one to four bytes depending on the code point. -/
def utf8EncodeChar (c : Char) : List Nat :=
  let n := c.toNat
  if n < 0x80 then [n]
  else if n < 0x800 then [0xC0 + n / 64, 0x80 + n % 64]
  else if n < 0x10000 then [0xE0 + n / 4096, 0x80 + n / 64 % 64, 0x80 + n % 64]
  else [0xF0 + n / 262144, 0x80 + n / 4096 % 64, 0x80 + n / 64 % 64, 0x80 + n % 64]

/-- UTF-8 byte sequence of a string: models Rust's `str::as_bytes`. -/
def utf8Encode (s : String) : List Nat :=
  s.data.flatMap utf8EncodeChar

/-- Uppercase hexadecimal digit, as the `percent_encoding` crate writes the
two digits after a percent sign. -/
def hexUpperChar (d : Nat) : Char :=
  if d < 10 then Char.ofNat (48 + d) else Char.ofNat (55 + d)

/-- Membership test for the `percent_encoding` crate's `USERINFO_ENCODE_SET`:
the simple set (controls and non-ASCII) plus the default set's additions
(space, double quote, hash, angle brackets, backquote, question mark, curly
braces) plus slash, colon, semicolon, equals, at, square brackets, backslash,
caret and pipe. -/
def userinfoEncodeSet (b : Nat) : Bool :=
  b < 0x20 || b > 0x7E ||
  b = 32 || b = 34 || b = 35 || b = 60 || b = 62 || b = 96 || b = 63 ||
  b = 123 || b = 125 ||
  b = 47 || b = 58 || b = 59 || b = 61 || b = 64 || b = 91 || b = 92 ||
  b = 93 || b = 94 || b = 124

/-- Percent-encoding of one byte under an encode set: bytes in the set become
a percent sign followed by two uppercase hex digits, others pass through. -/
def percentEncodeByte (inSet : Nat → Bool) (b : Nat) : List Char :=
  if inSet b then ['%', hexUpperChar (b / 16), hexUpperChar (b % 16)]
  else [Char.ofNat b]

/-- Model of `percent_encoding::percent_encode(s.as_bytes(),
USERINFO_ENCODE_SET)` collected to a string, as used in src/utils.rs. -/
def percent_encode_userinfo (s : String) : String :=
  String.mk ((utf8Encode s).flatMap (percentEncodeByte userinfoEncodeSet))

/-- The function `bot_authorization_url` from src/utils.rs. -/
def bot_authorization_url (client_id : Nat) (permissions : Permissions) :
    String :=
  BASE_AUTHORIZE_URI ++ "?client_id=" ++ natToDecimal client_id ++
    "&scope=bot&permissions=" ++ natToDecimal permissions.bits

/-- The function `authorization_code_grant_url` from src/utils.rs, with the
scope-writing loop transcribed via `List.enum` (mirroring
`scopes.iter().enumerate()`, appending the separator whenever
`i + 1 < scope_count`). -/
def authorization_code_grant_url (client_id : Nat) (scopes : List Scope)
    (state : Option String) (redirect_uri : String) : String :=
  let uri := percent_encode_userinfo redirect_uri
  let base := BASE_AUTHORIZE_URI ++ "?response_type=code&client_id=" ++
    natToDecimal client_id ++ "&redirect_uri=" ++ uri ++ "&scope="
  let scope_count := scopes.length
  let base := scopes.enum.foldl
    (fun b p =>
      let b := b ++ (p.2).display
      if p.1 + 1 < scope_count then b ++ "%20" else b)
    base
  match state with
  | some s => base ++ "&state=" ++ s
  | none => base

/-- Joining a list of strings with the literal separator used by the spec for
the scope parameter. -/
def joinPercent20 : List String → String
  | [] => ""
  | [x] => x
  | x :: y :: rest => x ++ "%20" ++ joinPercent20 (y :: rest)

/-- Helper: folding the scope-writing loop body over an indexed suffix of the
scope list appends exactly the canonical strings joined by the literal
percent-encoded space. -/
theorem foldl_scopes_enumFrom (l : List Scope) :
    ∀ (k n : Nat) (init : String), n = k + l.length →
    (List.enumFrom k l).foldl
      (fun b p =>
        let b := b ++ (p.2).display
        if p.1 + 1 < n then b ++ "%20" else b)
      init
    = init ++ joinPercent20 (l.map Scope.display) := by
  induction l with
  | nil =>
    intro k n init _
    simp [joinPercent20, List.enumFrom]
  | cons a l ih =>
    intro k n init hn
    cases l with
    | nil =>
      have hlt : ¬ (k + 1 < n) := by simp [hn]
      simp [List.enumFrom, hlt, joinPercent20]
    | cons b l2 =>
      have hlt : k + 1 < n := by simp [hn]; try omega
      have step := ih (k + 1) n (init ++ a.display ++ "%20")
        (by simp [hn]; try omega)
      simp only [List.enumFrom, List.foldl, hlt, if_pos] at *
      rw [step]
      simp [joinPercent20, String.append_assoc]

/-- Helper: the grant URL with a state is the grant URL without one followed
by the state suffix (shared shape lemma used by several claims). -/
theorem grant_url_state_split (client_id : Nat) (scopes : List Scope)
    (s : String) (redirect_uri : String) :
    authorization_code_grant_url client_id scopes (some s) redirect_uri
    = authorization_code_grant_url client_id scopes none redirect_uri ++
        "&state=" ++ s := rfl

/-- Helper: closed form of the grant URL with no state. -/
theorem grant_url_none_closed (client_id : Nat) (scopes : List Scope)
    (redirect_uri : String) :
    authorization_code_grant_url client_id scopes none redirect_uri
    = BASE_AUTHORIZE_URI ++ "?response_type=code&client_id=" ++
        natToDecimal client_id ++ "&redirect_uri=" ++
        percent_encode_userinfo redirect_uri ++ "&scope=" ++
        joinPercent20 (scopes.map Scope.display) := by
  unfold authorization_code_grant_url
  simp only []
  rw [show scopes.enum = List.enumFrom 0 scopes from rfl,
    foldl_scopes_enumFrom scopes 0 scopes.length _ (by omega)]

/-- C1: authorization_code_grant_url returns the authorize base followed by
response_type, client id, the percent-encoded redirect URI, the scopes joined
by the literal percent-encoded space, and the state parameter exactly when a
state is present (omitted entirely when absent); the documented concrete
example produces exactly the expected URL. -/
theorem authorization_code_grant_url_spec :
    (∀ (client_id : Nat) (scopes : List Scope) (state : Option String)
      (redirect_uri : String),
      authorization_code_grant_url client_id scopes state redirect_uri
      = BASE_AUTHORIZE_URI ++ "?response_type=code&client_id=" ++
          natToDecimal client_id ++ "&redirect_uri=" ++
          percent_encode_userinfo redirect_uri ++ "&scope=" ++
          joinPercent20 (scopes.map Scope.display) ++
          (match state with
           | some s => "&state=" ++ s
           | none => "")) ∧
    authorization_code_grant_url 249608697955745802
      [Scope.GuildsJoin, Scope.Identify] (some "15773059ghq9183habn")
      "https://myapplication.website"
    = "https://discordapp.com/api/oauth2/authorize?response_type=code&client_id=249608697955745802&redirect_uri=https%3A%2F%2Fmyapplication.website&scope=guilds.join%20identify&state=15773059ghq9183habn" := by
  constructor
  · intro client_id scopes state redirect_uri
    cases state with
    | none => rw [grant_url_none_closed]; simp
    | some s =>
      rw [grant_url_state_split, grant_url_none_closed]
      simp [String.append_assoc]
  · decide

/-- C10: when a state is supplied, the grant URL is the stateless URL followed
by the literal state marker and the state string byte for byte, with no
percent-encoding, escaping or validation, even for URL-significant characters
(second conjunct shows a state holding ampersand, equals, percent and space
appended verbatim). -/
theorem grant_url_state_verbatim :
    (∀ (client_id : Nat) (scopes : List Scope) (s : String)
      (redirect_uri : String),
      authorization_code_grant_url client_id scopes (some s) redirect_uri
      = authorization_code_grant_url client_id scopes none redirect_uri ++
          "&state=" ++ s) ∧
    authorization_code_grant_url 7 [] (some "a&b=c%d e") "x"
    = "https://discordapp.com/api/oauth2/authorize?response_type=code&client_id=7&redirect_uri=x&scope=&state=a&b=c%d e" := by
  exact ⟨fun client_id scopes s redirect_uri =>
    grant_url_state_split client_id scopes s redirect_uri, by decide⟩

/-- C4: the scope parameter of the grant URL lists the canonical string of
each input scope in the caller's order and with the input count, joined by the
literal percent-encoded space, with no deduplication or sorting (witnessed by
the duplicate-scope conjunct); the empty scope list leaves a trailing scope
parameter with an empty value rather than omitting it. -/
theorem grant_url_scope_param_spec :
    (∀ (client_id : Nat) (scopes : List Scope) (redirect_uri : String),
      authorization_code_grant_url client_id scopes none redirect_uri
      = authorization_code_grant_url client_id [] none redirect_uri ++
          joinPercent20 (scopes.map Scope.display)) ∧
    (∀ (client_id : Nat) (redirect_uri : String),
      authorization_code_grant_url client_id [] none redirect_uri
      = BASE_AUTHORIZE_URI ++ "?response_type=code&client_id=" ++
          natToDecimal client_id ++ "&redirect_uri=" ++
          percent_encode_userinfo redirect_uri ++ "&scope=") ∧
    authorization_code_grant_url 7 [Scope.Identify, Scope.Identify] none "x"
    = authorization_code_grant_url 7 [] none "x" ++ "identify%20identify" := by
  refine ⟨fun client_id scopes redirect_uri => ?_,
    fun client_id redirect_uri => ?_, by decide⟩
  · rw [grant_url_none_closed, grant_url_none_closed]
    simp [joinPercent20]
  · rw [grant_url_none_closed]
    simp [joinPercent20]

/-- C8: bot_authorization_url is exactly the authorize base followed by the
decimal client id, the literal bot scope, and the decimal permission bits;
the documented concrete example produces exactly the expected URL. -/
theorem bot_authorization_url_spec :
    (∀ (client_id : Nat) (permissions : Permissions),
      bot_authorization_url client_id permissions
      = BASE_AUTHORIZE_URI ++ "?client_id=" ++ natToDecimal client_id ++
          "&scope=bot&permissions=" ++ natToDecimal permissions.bits) ∧
    bot_authorization_url 249608697955745802 ⟨2112⟩
    = "https://discordapp.com/api/oauth2/authorize?client_id=249608697955745802&scope=bot&permissions=2112" := by
  exact ⟨fun client_id permissions => rfl, by decide⟩

/-- C9: the canonical string of every scope variant is the fixed provider
identifier, and the open variant passes its payload through verbatim; the
mapping is a total function, hence pure and deterministic. -/
theorem scope_display_spec :
    Scope.display Scope.Bot = "bot" ∧
    Scope.display Scope.Connections = "connections" ∧
    Scope.display Scope.Email = "email" ∧
    Scope.display Scope.Identify = "identify" ∧
    Scope.display Scope.Guilds = "guilds" ∧
    Scope.display Scope.GuildsJoin = "guilds.join" ∧
    Scope.display Scope.GdmJoin = "gdm.join" ∧
    Scope.display Scope.MessagesRead = "messages.read" ∧
    Scope.display Scope.Rpc = "rpc" ∧
    Scope.display Scope.RpcApi = "rpc.api" ∧
    Scope.display Scope.RpcNotificationsRead = "rpc.notifications.read" ∧
    Scope.display Scope.WebhookIncoming = "webhook.incoming" ∧
    ∀ s : String, Scope.display (Scope.Other s) = s := by
  refine ⟨rfl, rfl, rfl, rfl, rfl, rfl, rfl, rfl, rfl, rfl, rfl, rfl,
    fun s => rfl⟩

/-- The `AccessTokenExchangeRequest` struct from src/model.rs (field order as
declared, which fixes the wire order of the serialized body). -/
structure AccessTokenExchangeRequest where
  client_id : Nat
  client_secret : String
  code : String
  grant_type : String
  redirect_uri : String
deriving DecidableEq

/-- The constructor `AccessTokenExchangeRequest::new` from src/model.rs. -/
def AccessTokenExchangeRequest.new (client_id : Nat)
    (client_secret code redirect_uri : String) : AccessTokenExchangeRequest :=
  { client_secret := client_secret
    code := code
    grant_type := "authorization_code"
    redirect_uri := redirect_uri
    client_id := client_id }

/-- The `RefreshTokenRequest` struct from src/model.rs (field order as
declared). -/
structure RefreshTokenRequest where
  client_id : Nat
  client_secret : String
  grant_type : String
  redirect_uri : String
  refresh_token : String
deriving DecidableEq

/-- The constructor `RefreshTokenRequest::new` from src/model.rs. -/
def RefreshTokenRequest.new (client_id : Nat)
    (client_secret redirect_uri refresh_token : String) :
    RefreshTokenRequest :=
  { client_secret := client_secret
    grant_type := "refresh_token"
    redirect_uri := redirect_uri
    refresh_token := refresh_token
    client_id := client_id }

/-- The `AccessTokenResponse` struct from src/model.rs. -/
structure AccessTokenResponse where
  access_token : String
  expires_in : Nat
  refresh_token : String
  scope : String
  token_type : String
deriving DecidableEq

/-- Bytes the form-url-encoding serializer leaves unchanged (the `url`
crate's byte serializer as used by `serde_urlencoded`): ASCII alphanumerics
and asterisk, hyphen, period, underscore. -/
def formUrlUnreserved (b : Nat) : Bool :=
  (48 ≤ b && b ≤ 57) || (65 ≤ b && b ≤ 90) || (97 ≤ b && b ≤ 122) ||
  b = 42 || b = 45 || b = 46 || b = 95

/-- Form-url-encoding of one byte: space becomes a plus sign, unreserved
bytes pass through, everything else becomes percent plus two uppercase hex
digits. -/
def formEncodeByte (b : Nat) : List Char :=
  if b = 32 then ['+']
  else if formUrlUnreserved b then [Char.ofNat b]
  else ['%', hexUpperChar (b / 16), hexUpperChar (b % 16)]

/-- Form-url-encoding of a string over its UTF-8 bytes. -/
def formUrlEncode (s : String) : String :=
  String.mk ((utf8Encode s).flatMap formEncodeByte)

/-- Joining form pairs with ampersands. -/
def joinAmp : List String → String
  | [] => ""
  | [x] => x
  | x :: y :: rest => x ++ "&" ++ joinAmp (y :: rest)

/-- One serialized form pair. -/
def formPair (k v : String) : String := formUrlEncode k ++ "=" ++ formUrlEncode v

/-- Model of `serde_urlencoded::to_string` applied to an
`AccessTokenExchangeRequest`: the five fields in declaration order as
form-url-encoded pairs joined by ampersands (the `u64` field is rendered in
decimal first).  For this type serialization cannot fail, so the model
returns the string directly. -/
def serde_urlencoded_to_string (r : AccessTokenExchangeRequest) : String :=
  joinAmp
    [formPair "client_id" (natToDecimal r.client_id),
     formPair "client_secret" r.client_secret,
     formPair "code" r.code,
     formPair "grant_type" r.grant_type,
     formPair "redirect_uri" r.redirect_uri]

/-- Lowercase hexadecimal digit, as `serde_json` writes control-character
escapes. -/
def hexLowerChar (d : Nat) : Char :=
  if d < 10 then Char.ofNat (48 + d) else Char.ofNat (87 + d)

/-- JSON escaping of one character per `serde_json`: double quote and
backslash get a backslash escape, control characters get their short escape
or a lowercase unicode escape, everything else passes through. -/
def jsonEscapeChar (c : Char) : List Char :=
  if c = Char.ofNat 34 then [Char.ofNat 92, Char.ofNat 34]
  else if c = Char.ofNat 92 then [Char.ofNat 92, Char.ofNat 92]
  else if c.toNat = 8 then [Char.ofNat 92, 'b']
  else if c.toNat = 9 then [Char.ofNat 92, 't']
  else if c.toNat = 10 then [Char.ofNat 92, 'n']
  else if c.toNat = 12 then [Char.ofNat 92, 'f']
  else if c.toNat = 13 then [Char.ofNat 92, 'r']
  else if c.toNat < 0x20 then
    [Char.ofNat 92, 'u', '0', '0', hexLowerChar (c.toNat / 16),
      hexLowerChar (c.toNat % 16)]
  else [c]

/-- A JSON string literal: quoted, with each character escaped. -/
def jsonQuote (s : String) : String :=
  String.mk (Char.ofNat 34 :: (s.data.flatMap jsonEscapeChar ++ [Char.ofNat 34]))

/-- Model of `serde_json::to_string` applied to a `RefreshTokenRequest`: one
JSON object with the five fields in declaration order; the `u64` field is a
bare decimal number, the string fields are JSON string literals.  For this
type serialization cannot fail, so the model returns the string directly. -/
def serde_json_to_string_refresh (r : RefreshTokenRequest) : String :=
  "\x7b" ++ jsonQuote "client_id" ++ ":" ++ natToDecimal r.client_id ++
  "," ++ jsonQuote "client_secret" ++ ":" ++ jsonQuote r.client_secret ++
  "," ++ jsonQuote "grant_type" ++ ":" ++ jsonQuote r.grant_type ++
  "," ++ jsonQuote "redirect_uri" ++ ":" ++ jsonQuote r.redirect_uri ++
  "," ++ jsonQuote "refresh_token" ++ ":" ++ jsonQuote r.refresh_token ++
  "\x7d"

/-- Request body built by `exchange_code` in src/bridge/hyper.rs:
`serde_urlencoded::to_string(request)`. -/
def hyper_exchange_code_body (request : AccessTokenExchangeRequest) : String :=
  serde_urlencoded_to_string request

/-- Request body built by `exchange_refresh_token` in src/bridge/hyper.rs:
`serde_json::to_string(request)`. -/
def hyper_exchange_refresh_token_body (request : RefreshTokenRequest) :
    String :=
  serde_json_to_string_refresh request

/-- Request body built by `exchange_code` in src/bridge/reqwest.rs:
`serde_urlencoded::to_string(request)`. -/
def reqwest_exchange_code_body (request : AccessTokenExchangeRequest) :
    String :=
  serde_urlencoded_to_string request

/-- Request body built by `exchange_refresh_token` in src/bridge/reqwest.rs:
`serde_json::to_string(request)`. -/
def reqwest_exchange_refresh_token_body (request : RefreshTokenRequest) :
    String :=
  serde_json_to_string_refresh request

/-- C3: the constructor of the code-exchange request always sets the grant
type to the authorization-code literal, and the constructor of the refresh
request always sets it to the refresh-token literal, whatever the other
arguments are. -/
theorem request_constructors_grant_type :
    (∀ (client_id : Nat) (client_secret code redirect_uri : String),
      (AccessTokenExchangeRequest.new client_id client_secret code
        redirect_uri).grant_type = "authorization_code") ∧
    (∀ (client_id : Nat) (client_secret redirect_uri refresh_token : String),
      (RefreshTokenRequest.new client_id client_secret redirect_uri
        refresh_token).grant_type = "refresh_token") := by
  exact ⟨fun _ _ _ _ => rfl, fun _ _ _ _ => rfl⟩

/-- C2: for every request, both transport bindings build the code-exchange
body as the form-url-encoding of the request and the refresh body as the JSON
serialization of the request, and the two bindings produce identical bodies;
the two concrete conjuncts at the end exhibit the form-encoded shape of the
code-exchange body and the JSON shape of the refresh body on the documented
sample inputs. -/
theorem transport_bodies_spec :
    (∀ r : AccessTokenExchangeRequest,
      hyper_exchange_code_body r = serde_urlencoded_to_string r ∧
      reqwest_exchange_code_body r = serde_urlencoded_to_string r ∧
      hyper_exchange_code_body r = reqwest_exchange_code_body r) ∧
    (∀ r : RefreshTokenRequest,
      hyper_exchange_refresh_token_body r = serde_json_to_string_refresh r ∧
      reqwest_exchange_refresh_token_body r = serde_json_to_string_refresh r ∧
      hyper_exchange_refresh_token_body r
        = reqwest_exchange_refresh_token_body r) ∧
    hyper_exchange_code_body
      (AccessTokenExchangeRequest.new 249608697955745802
        "dd99opUAgs7SQEtk2kdRrTMU5zagR2a4" "user code here"
        "https://myapplication.website")
    = "client_id=249608697955745802&client_secret=dd99opUAgs7SQEtk2kdRrTMU5zagR2a4&code=user+code+here&grant_type=authorization_code&redirect_uri=https%3A%2F%2Fmyapplication.website" ∧
    hyper_exchange_refresh_token_body
      (RefreshTokenRequest.new 249608697955745802
        "dd99opUAgs7SQEtk2kdRrTMU5zagR2a4" "https://myapplication.website"
        "user token here")
    = "\x7b\"client_id\":249608697955745802,\"client_secret\":\"dd99opUAgs7SQEtk2kdRrTMU5zagR2a4\",\"grant_type\":\"refresh_token\",\"redirect_uri\":\"https://myapplication.website\",\"refresh_token\":\"user token here\"\x7d" := by
  exact ⟨fun r => ⟨rfl, rfl, rfl⟩, fun r => ⟨rfl, rfl, rfl⟩, by decide,
    by decide⟩

/-- Named character constants used by the string-level models. -/
def quoteChar : Char := Char.ofNat 34

/-- Backslash character constant. -/
def backslashChar : Char := Char.ofNat 92

/-- Opening curly brace character constant. -/
def lbraceChar : Char := Char.ofNat 123

/-- Closing curly brace character constant. -/
def rbraceChar : Char := Char.ofNat 125

/-- The `hyper` crate's error type, modelled by its message. -/
structure HyperError where
  msg : String
deriving DecidableEq

/-- The `reqwest` crate's error type, modelled by its message. -/
structure ReqwestError where
  msg : String
deriving DecidableEq

/-- The `serde_json` crate's error type, modelled by its message. -/
structure JsonError where
  msg : String
deriving DecidableEq

/-- The `serde_urlencoded` serializer error type, modelled by its message. -/
structure UrlEncodeError where
  msg : String
deriving DecidableEq

/-- The unified `Error` enum from src/error.rs, one variant per wrapped
underlying cause. -/
inductive Error where
  | Hyper : HyperError → Error
  | Reqwest : ReqwestError → Error
  | Json : JsonError → Error
  | UrlEncode : UrlEncodeError → Error
deriving DecidableEq

/-- The `StdError::description` implementation from src/error.rs: delegates
to the wrapped cause's message in every variant. -/
def Error.description : Error → String
  | .Hyper inner => inner.msg
  | .Reqwest inner => inner.msg
  | .Json inner => inner.msg
  | .UrlEncode inner => inner.msg

/-- The `Display` implementation for `Error` from src/error.rs, embedded with
fuel.  The body is `f.write_str(self.to_string().as_str())`, and
`ToString::to_string` is the blanket implementation that itself invokes this
very `Display::fmt`; each fuel step models one round of that self-call, and a
completed formatting would return exactly the string the inner call produced
(`write_str` adds nothing).  Exhausted fuel (`none`) marks a computation that
has not produced a string yet. -/
def error_display_fuel : Nat → Error → Option String
  | 0, _ => none
  | fuel + 1, e => error_display_fuel fuel e

/-- C6 evidence: the `Display` implementation for `Error` never produces any
output, whatever the variant and however much fuel the self-recursion is
given — in particular it never produces the wrapped cause's message.  The
code's `fmt` calls `self.to_string()`, which is defined in terms of `fmt`
itself, so formatting recurses forever instead of delegating to the wrapped
cause. -/
theorem error_display_diverges :
    ∀ (fuel : Nat) (e : Error), error_display_fuel fuel e = none := by
  intro fuel
  induction fuel with
  | zero => intro e; rfl
  | succ fuel ih => intro e; exact ih e

/-- JSON values, as `serde_json` parses them; numbers keep their sign, their
integral part and a flag recording whether the token was a plain integer
(no fraction, no exponent). -/
inductive JsonValue where
  | null
  | bool (b : Bool)
  | num (neg : Bool) (intPart : Nat) (isInt : Bool)
  | str (s : String)
  | arr (elems : List JsonValue)
  | obj (entries : List (String × JsonValue))

/-- Whitespace characters JSON skips between tokens. -/
def jsonWs (c : Char) : Bool :=
  c = ' ' || c = Char.ofNat 9 || c = Char.ofNat 10 || c = Char.ofNat 13

/-- Skipping leading JSON whitespace. -/
def skipWs : List Char → List Char
  | [] => []
  | c :: rest => if jsonWs c then skipWs rest else c :: rest

/-- Value of one hexadecimal digit character, either case. -/
def hexVal (c : Char) : Option Nat :=
  if 48 ≤ c.toNat && c.toNat ≤ 57 then some (c.toNat - 48)
  else if 65 ≤ c.toNat && c.toNat ≤ 70 then some (c.toNat - 55)
  else if 97 ≤ c.toNat && c.toNat ≤ 102 then some (c.toNat - 87)
  else none

/-- Decimal digit test. -/
def isDigitChar (c : Char) : Bool := 48 ≤ c.toNat && c.toNat ≤ 57

/-- Splitting a leading run of decimal digits off a character list. -/
def takeDigits : List Char → (List Char × List Char)
  | [] => ([], [])
  | c :: rest =>
    if isDigitChar c then
      let p := takeDigits rest
      (c :: p.1, p.2)
    else ([], c :: rest)

/-- Numeric value of a digit run. -/
def digitsToNat (l : List Char) : Nat :=
  l.foldl (fun acc c => acc * 10 + (c.toNat - 48)) 0

/-- Body of a JSON string literal after the opening quote: collects characters
until the closing quote, decoding escapes as `serde_json` does. -/
def parseJsonStringCore : Nat → List Char → List Char →
    Except String (List Char × List Char)
  | 0, _, _ => .error "recursion limit exceeded"
  | fuel + 1, acc, input =>
    match input with
    | [] => .error "EOF while parsing a string"
    | c :: rest =>
      if c = quoteChar then .ok (acc.reverse, rest)
      else if c = backslashChar then
        match rest with
        | [] => .error "EOF while parsing a string"
        | e :: rest2 =>
          if e = quoteChar then parseJsonStringCore fuel (quoteChar :: acc) rest2
          else if e = backslashChar then
            parseJsonStringCore fuel (backslashChar :: acc) rest2
          else if e = '/' then parseJsonStringCore fuel ('/' :: acc) rest2
          else if e = 'b' then
            parseJsonStringCore fuel (Char.ofNat 8 :: acc) rest2
          else if e = 'f' then
            parseJsonStringCore fuel (Char.ofNat 12 :: acc) rest2
          else if e = 'n' then
            parseJsonStringCore fuel (Char.ofNat 10 :: acc) rest2
          else if e = 'r' then
            parseJsonStringCore fuel (Char.ofNat 13 :: acc) rest2
          else if e = 't' then
            parseJsonStringCore fuel (Char.ofNat 9 :: acc) rest2
          else if e = 'u' then
            match rest2 with
            | h1 :: h2 :: h3 :: h4 :: rest3 =>
              match hexVal h1, hexVal h2, hexVal h3, hexVal h4 with
              | some a, some b, some c2, some d =>
                parseJsonStringCore fuel
                  (Char.ofNat (4096 * a + 256 * b + 16 * c2 + d) :: acc) rest3
              | _, _, _, _ => .error "invalid escape"
            | _ => .error "EOF while parsing a string"
          else .error "invalid escape"
      else if c.toNat < 32 then .error "control character in string"
      else parseJsonStringCore fuel (c :: acc) rest

/-- Exponent part of a JSON number, if present; errors when the exponent
marker is not followed by digits. -/
def parseExpTail (input : List Char) : Except String (Bool × List Char) :=
  match input with
  | [] => .ok (false, [])
  | c :: rest =>
    if c = 'e' || c = 'E' then
      let rest2 := match rest with
        | s :: r => if s = '+' || s = '-' then r else s :: r
        | [] => []
      let p := takeDigits rest2
      if p.1.isEmpty then .error "invalid number" else .ok (true, p.2)
    else .ok (false, c :: rest)

/-- Fraction part of a JSON number, if present; errors when the decimal point
is not followed by digits. -/
def parseFracTail (input : List Char) : Except String (Bool × List Char) :=
  match input with
  | [] => .ok (false, [])
  | c :: rest =>
    if c = '.' then
      let p := takeDigits rest
      if p.1.isEmpty then .error "invalid number" else .ok (true, p.2)
    else .ok (false, c :: rest)

/-- A JSON number after an optional already-consumed minus sign: digits with
no superfluous leading zero, then optional fraction and exponent. -/
def parseJsonNumber (neg : Bool) (input : List Char) :
    Except String (JsonValue × List Char) :=
  let p := takeDigits input
  match p.1 with
  | [] => .error "invalid number"
  | d :: ds2 =>
    if d = decChar 0 && !ds2.isEmpty then .error "invalid number"
    else do
      let fr ← parseFracTail p.2
      let ex ← parseExpTail fr.2
      .ok (JsonValue.num neg (digitsToNat p.1) (!fr.1 && !ex.1), ex.2)

/-- Matching an expected literal keyword tail. -/
def expectChars : List Char → List Char → Option (List Char)
  | [], input => some input
  | e :: es, c :: rest => if c = e then expectChars es rest else none
  | _ :: _, [] => none

mutual

/-- Recursive JSON value parser (fuel-driven), modelling `serde_json`'s
grammar: strings, numbers, the three keywords, arrays and objects. -/
def parseJsonValue : Nat → List Char → Except String (JsonValue × List Char)
  | 0, _ => .error "recursion limit exceeded"
  | fuel + 1, input =>
    match skipWs input with
    | [] => .error "EOF while parsing a value"
    | c :: rest =>
      if c = quoteChar then do
        let p ← parseJsonStringCore (rest.length + 1) [] rest
        .ok (JsonValue.str (String.mk p.1), p.2)
      else if c = lbraceChar then
        match skipWs rest with
        | d :: rest2 =>
          if d = rbraceChar then .ok (JsonValue.obj [], rest2)
          else do
            let p ← parseJsonObjectItems fuel (d :: rest2)
            .ok (JsonValue.obj p.1, p.2)
        | [] => .error "EOF while parsing an object"
      else if c = '[' then
        match skipWs rest with
        | d :: rest2 =>
          if d = ']' then .ok (JsonValue.arr [], rest2)
          else do
            let p ← parseJsonArrayItems fuel (d :: rest2)
            .ok (JsonValue.arr p.1, p.2)
        | [] => .error "EOF while parsing a list"
      else if c = '-' then parseJsonNumber true rest
      else if isDigitChar c then parseJsonNumber false (c :: rest)
      else if c = 't' then
        match expectChars ['r', 'u', 'e'] rest with
        | some rest2 => .ok (JsonValue.bool true, rest2)
        | none => .error "expected ident"
      else if c = 'f' then
        match expectChars ['a', 'l', 's', 'e'] rest with
        | some rest2 => .ok (JsonValue.bool false, rest2)
        | none => .error "expected ident"
      else if c = 'n' then
        match expectChars ['u', 'l', 'l'] rest with
        | some rest2 => .ok (JsonValue.null, rest2)
        | none => .error "expected ident"
      else .error "expected value"

/-- Comma-separated JSON array items up to the closing bracket. -/
def parseJsonArrayItems : Nat → List Char →
    Except String (List JsonValue × List Char)
  | 0, _ => .error "recursion limit exceeded"
  | fuel + 1, input => do
    let p ← parseJsonValue fuel input
    match skipWs p.2 with
    | c :: rest2 =>
      if c = ',' then do
        let q ← parseJsonArrayItems fuel rest2
        .ok (p.1 :: q.1, q.2)
      else if c = ']' then .ok ([p.1], rest2)
      else .error "expected comma or bracket"
    | [] => .error "EOF while parsing a list"

/-- Comma-separated JSON object entries up to the closing brace. -/
def parseJsonObjectItems : Nat → List Char →
    Except String (List (String × JsonValue) × List Char)
  | 0, _ => .error "recursion limit exceeded"
  | fuel + 1, input =>
    match skipWs input with
    | c :: rest =>
      if c = quoteChar then do
        let k ← parseJsonStringCore (rest.length + 1) [] rest
        match skipWs k.2 with
        | d :: rest2 =>
          if d = ':' then do
            let v ← parseJsonValue fuel rest2
            match skipWs v.2 with
            | e :: rest3 =>
              if e = ',' then do
                let q ← parseJsonObjectItems fuel rest3
                .ok ((String.mk k.1, v.1) :: q.1, q.2)
              else if e = rbraceChar then .ok ([(String.mk k.1, v.1)], rest3)
              else .error "expected comma or brace"
            | [] => .error "EOF while parsing an object"
          else .error "expected colon"
        | [] => .error "EOF while parsing an object"
      else .error "key must be a string"
    | [] => .error "EOF while parsing an object"

end

/-- Looking up a required field in a parsed JSON object the way a derived
`serde` deserializer does: absent and duplicate occurrences are errors,
unknown entries are ignored. -/
def jsonField (entries : List (String × JsonValue)) (name : String) :
    Except String JsonValue :=
  match entries.filter (fun p => p.1 == name) with
  | [v] => .ok v.2
  | [] => .error ("missing field " ++ name)
  | _ => .error ("duplicate field " ++ name)

/-- Deserializing a JSON value as a Rust `String` field. -/
def jsonAsString : JsonValue → Except String String
  | .str s => .ok s
  | _ => .error "invalid type: expected a string"

/-- Deserializing a JSON value as a Rust `u64` field: a non-negative plain
integer below two to the sixty-fourth. -/
def jsonAsU64 : JsonValue → Except String Nat
  | .num neg n isInt =>
    if !isInt then .error "invalid type: floating point"
    else if neg && !(n == 0) then .error "invalid value: negative integer"
    else if n < 2 ^ 64 then .ok n
    else .error "invalid value: integer out of range"
  | _ => .error "invalid type: expected u64"

/-- Deserializing a parsed JSON value into `AccessTokenResponse`, requiring
an object with the five expected fields of the expected types. -/
def deserializeAccessTokenResponse (v : JsonValue) :
    Except String AccessTokenResponse :=
  match v with
  | .obj entries => do
    let tok ← jsonField entries "access_token" >>= jsonAsString
    let exp ← jsonField entries "expires_in" >>= jsonAsU64
    let ref ← jsonField entries "refresh_token" >>= jsonAsString
    let sc ← jsonField entries "scope" >>= jsonAsString
    let tt ← jsonField entries "token_type" >>= jsonAsString
    .ok ⟨tok, exp, ref, sc, tt⟩
  | _ => .error "invalid type: expected struct AccessTokenResponse"

/-- Model of `serde_json::from_str::<AccessTokenResponse>`: parse one JSON
value, require only whitespace after it, then deserialize into the response
struct; every failure is a `serde_json` error. -/
def serde_json_from_str_response (s : String) :
    Except JsonError AccessTokenResponse :=
  match parseJsonValue (2 * s.length + 2) s.data with
  | .error m => .error ⟨m⟩
  | .ok p =>
    if !(skipWs p.2).isEmpty then .error ⟨"trailing characters"⟩
    else
      match deserializeAccessTokenResponse p.1 with
      | .error m => .error ⟨m⟩
      | .ok r => .ok r

/-- Response handling of `exchange_code` in src/bridge/hyper.rs:
`serde_json::from_reader(response).map_err(From::from)`, with `From`
producing the `Json` variant. -/
def hyper_exchange_code_decode (body : String) :
    Except Error AccessTokenResponse :=
  (serde_json_from_str_response body).mapError Error.Json

/-- Response handling of `exchange_refresh_token` in src/bridge/hyper.rs. -/
def hyper_exchange_refresh_token_decode (body : String) :
    Except Error AccessTokenResponse :=
  (serde_json_from_str_response body).mapError Error.Json

/-- Response handling of `exchange_code` in src/bridge/reqwest.rs:
`serde_json::from_str(&*body).map_err(From::from)`. -/
def reqwest_exchange_code_decode (body : String) :
    Except Error AccessTokenResponse :=
  (serde_json_from_str_response body).mapError Error.Json

/-- Response handling of `exchange_refresh_token` in src/bridge/reqwest.rs. -/
def reqwest_exchange_refresh_token_decode (body : String) :
    Except Error AccessTokenResponse :=
  (serde_json_from_str_response body).mapError Error.Json

deriving instance DecidableEq for Except

/-- C5: whenever a response body does not deserialize as the expected JSON
shape (non-JSON text included), every binding of `exchange_code` and
`exchange_refresh_token` turns that failure into the `Json` variant of the
unified error type, and none of them returns a success value — in particular
no default or empty response object.  The model is a total function, so the
decoding step cannot panic. -/
theorem exchange_decode_json_failure (body : String)
    (h : (serde_json_from_str_response body).isOk = false) :
    (∃ e, hyper_exchange_code_decode body = .error (Error.Json e)) ∧
    (∃ e, reqwest_exchange_code_decode body = .error (Error.Json e)) ∧
    (∃ e, hyper_exchange_refresh_token_decode body = .error (Error.Json e)) ∧
    (∃ e, reqwest_exchange_refresh_token_decode body
      = .error (Error.Json e)) ∧
    (∀ r, hyper_exchange_code_decode body ≠ .ok r) ∧
    (∀ r, reqwest_exchange_code_decode body ≠ .ok r) ∧
    (∀ r, hyper_exchange_refresh_token_decode body ≠ .ok r) ∧
    (∀ r, reqwest_exchange_refresh_token_decode body ≠ .ok r) := by
  cases he : serde_json_from_str_response body with
  | ok r => rw [he] at h; simp [Except.isOk, Except.toBool] at h
  | error e =>
    refine ⟨⟨e, ?_⟩, ⟨e, ?_⟩, ⟨e, ?_⟩, ⟨e, ?_⟩, ?_, ?_, ?_, ?_⟩ <;>
      simp [hyper_exchange_code_decode, reqwest_exchange_code_decode,
        hyper_exchange_refresh_token_decode,
        reqwest_exchange_refresh_token_decode, Except.mapError, he]

/-- Witness for C5 at the concrete non-JSON body of an HTML error page. -/
theorem exchange_decode_json_failure_witness :
    (serde_json_from_str_response "<!DOCTYPE html>").isOk = false ∧
    ((∃ e, hyper_exchange_code_decode "<!DOCTYPE html>"
      = .error (Error.Json e)) ∧
    (∃ e, reqwest_exchange_code_decode "<!DOCTYPE html>"
      = .error (Error.Json e)) ∧
    (∃ e, hyper_exchange_refresh_token_decode "<!DOCTYPE html>"
      = .error (Error.Json e)) ∧
    (∃ e, reqwest_exchange_refresh_token_decode "<!DOCTYPE html>"
      = .error (Error.Json e)) ∧
    (∀ r, hyper_exchange_code_decode "<!DOCTYPE html>" ≠ .ok r) ∧
    (∀ r, reqwest_exchange_code_decode "<!DOCTYPE html>" ≠ .ok r) ∧
    (∀ r, hyper_exchange_refresh_token_decode "<!DOCTYPE html>" ≠ .ok r) ∧
    (∀ r, reqwest_exchange_refresh_token_decode "<!DOCTYPE html>"
      ≠ .ok r)) :=
  ⟨by decide, exchange_decode_json_failure "<!DOCTYPE html>" (by decide)⟩

/-- ASCII test for a string, used as the permitted-character hypothesis of the
round-trip claim (every ASCII character is one UTF-8 byte, so the byte-level
serializers act character by character on such strings). -/
def isAsciiString (s : String) : Bool :=
  s.data.all (fun c => c.toNat < 128)

/-- Splitting on ampersands, as the form-urlencoded parser cuts the body into
pairs. -/
def splitOnAmp : List Char → List (List Char)
  | [] => [[]]
  | c :: rest =>
    if c = '&' then [] :: splitOnAmp rest
    else
      match splitOnAmp rest with
      | [] => [[c]]
      | g :: gs => (c :: g) :: gs

/-- Splitting one pair at its first equals sign; a pair with no equals sign
has an empty value. -/
def splitOnEq : List Char → (List Char × List Char)
  | [] => ([], [])
  | c :: rest =>
    if c = '=' then ([], rest)
    else
      let p := splitOnEq rest
      (c :: p.1, p.2)

/-- Fuel-driven core of percent-decoding; the fuel only bounds the recursion
depth (one unit per consumed character suffices). -/
def percentDecodeCore : Nat → List Char → List Nat
  | 0, _ => []
  | fuel + 1, l =>
    match l with
    | [] => []
    | c :: rest =>
      if c = '+' then 32 :: percentDecodeCore fuel rest
      else if c = '%' then
        match rest with
        | h1 :: h2 :: rest2 =>
          match hexVal h1, hexVal h2 with
          | some a, some b => (16 * a + b) :: percentDecodeCore fuel rest2
          | _, _ => 37 :: percentDecodeCore fuel rest
        | _ => 37 :: percentDecodeCore fuel rest
      else utf8EncodeChar c ++ percentDecodeCore fuel rest

/-- Percent-decoding of one form-urlencoded component to bytes: plus becomes
space, a percent sign followed by two hex digits becomes that byte, a
malformed percent sequence keeps the percent byte verbatim and rescans from
the next character, and any other character contributes its UTF-8 bytes. -/
def percentDecodeBytes (l : List Char) : List Nat :=
  percentDecodeCore (l.length + 1) l

/-- Fuel-driven UTF-8 decoder implementing the standard validity table
(continuation ranges, no overlong forms, no surrogates, max U+10FFFF), as
Rust's `String::from_utf8` accepts byte sequences. -/
def utf8DecodeCore : Nat → List Nat → Option (List Char)
  | 0, _ => none
  | _ + 1, [] => some []
  | fuel + 1, b :: rest =>
    if b < 0x80 then
      match utf8DecodeCore fuel rest with
      | some cs => some (Char.ofNat b :: cs)
      | none => none
    else if b < 0xC2 then none
    else if b < 0xE0 then
      match rest with
      | b2 :: rest2 =>
        if 0x80 ≤ b2 && b2 < 0xC0 then
          match utf8DecodeCore fuel rest2 with
          | some cs => some (Char.ofNat ((b - 0xC0) * 64 + (b2 - 0x80)) :: cs)
          | none => none
        else none
      | [] => none
    else if b < 0xF0 then
      match rest with
      | b2 :: b3 :: rest2 =>
        let lo2 := if b = 0xE0 then 0xA0 else 0x80
        let hi2 := if b = 0xED then 0xA0 else 0xC0
        if lo2 ≤ b2 && b2 < hi2 && 0x80 ≤ b3 && b3 < 0xC0 then
          match utf8DecodeCore fuel rest2 with
          | some cs =>
            some (Char.ofNat
              ((b - 0xE0) * 4096 + (b2 - 0x80) * 64 + (b3 - 0x80)) :: cs)
          | none => none
        else none
      | _ => none
    else if b < 0xF5 then
      match rest with
      | b2 :: b3 :: b4 :: rest2 =>
        let lo2 := if b = 0xF0 then 0x90 else 0x80
        let hi2 := if b = 0xF4 then 0x90 else 0xC0
        if lo2 ≤ b2 && b2 < hi2 && 0x80 ≤ b3 && b3 < 0xC0 &&
            0x80 ≤ b4 && b4 < 0xC0 then
          match utf8DecodeCore fuel rest2 with
          | some cs =>
            some (Char.ofNat
              ((b - 0xF0) * 262144 + (b2 - 0x80) * 4096 + (b3 - 0x80) * 64 +
                (b4 - 0x80)) :: cs)
          | none => none
        else none
      | _ => none
    else none

/-- UTF-8 decoding of a byte list. -/
def utf8Decode (l : List Nat) : Option (List Char) :=
  utf8DecodeCore (l.length + 1) l

/-- Percent-decoding one component back to a string (fails on bytes that are
not valid UTF-8, as `String::from_utf8` does). -/
def decodeComponent (l : List Char) : Option String :=
  match utf8Decode (percentDecodeBytes l) with
  | some cs => some (String.mk cs)
  | none => none

/-- Accumulating decimal parse of a digit run, as `str::parse::<u64>` reads
the value. -/
def parseDecAcc : List Char → Nat → Option Nat
  | [], acc => some acc
  | c :: rest, acc =>
    if isDigitChar c then parseDecAcc rest (acc * 10 + (c.toNat - 48))
    else none

/-- Model of parsing a `u64` field value from its string, as the
form-urlencoded deserializer does for the client id: decimal digits only and
within the `u64` range. -/
def parseU64 (s : String) : Option Nat :=
  if s.data.isEmpty then none
  else
    match parseDecAcc s.data 0 with
    | some n => if n < 2 ^ 64 then some n else none
    | none => none

/-- Folding decoded pairs into the five fields of the exchange request the
way a derived deserializer consumes a map: each known key may appear exactly
once (a second occurrence is a duplicate-field error), unknown keys are
ignored, and at the end every field must be present, with the client id
parsed as a `u64`. -/
def assignFields : Option String → Option String → Option String →
    Option String → Option String → List (String × String) →
    Option AccessTokenExchangeRequest
  | some cid, some cs, some code, some gt, some ru, [] =>
    match parseU64 cid with
    | some n => some ⟨n, cs, code, gt, ru⟩
    | none => none
  | _, _, _, _, _, [] => none
  | cid, cs, code, gt, ru, (k, v) :: rest =>
    if k = "client_id" then
      if cid.isSome then none else assignFields (some v) cs code gt ru rest
    else if k = "client_secret" then
      if cs.isSome then none else assignFields cid (some v) code gt ru rest
    else if k = "code" then
      if code.isSome then none else assignFields cid cs (some v) gt ru rest
    else if k = "grant_type" then
      if gt.isSome then none else assignFields cid cs code (some v) ru rest
    else if k = "redirect_uri" then
      if ru.isSome then none else assignFields cid cs code gt (some v) rest
    else assignFields cid cs code gt ru rest

/-- Decoding every split pair to its key and value strings. -/
def decodePairs : List (List Char) → Option (List (String × String))
  | [] => some []
  | seg :: rest =>
    match decodeComponent (splitOnEq seg).1, decodeComponent (splitOnEq seg).2,
        decodePairs rest with
    | some k, some v, some ps => some ((k, v) :: ps)
    | _, _, _ => none

/-- Model of `serde_urlencoded::from_str::<AccessTokenExchangeRequest>`:
split the body on ampersands, split each pair at its first equals sign,
percent-decode both components, then assign the five struct fields. -/
def serde_urlencoded_from_str (s : String) :
    Option AccessTokenExchangeRequest :=
  match decodePairs (splitOnAmp s.data) with
  | some ps => assignFields none none none none none ps
  | none => none

/-- Helper fact: the ampersand never occurs in the encoding of any byte. -/
theorem formEncodeByte_no_amp : ∀ b : Fin 256, '&' ∉ formEncodeByte b.val := by
  decide

/-- Helper fact: the equals sign never occurs in the encoding of any byte. -/
theorem formEncodeByte_no_eq : ∀ b : Fin 256, '=' ∉ formEncodeByte b.val := by
  decide

/-- Helper fact: an uppercase hex digit decodes back to its value. -/
theorem hexVal_hexUpperChar : ∀ d : Fin 16,
    hexVal (hexUpperChar d.val) = some d.val := by decide

/-- Helper fact: an unreserved byte encodes to the single character that is
not a plus or percent sign and whose UTF-8 encoding is that byte again. -/
theorem formUrlUnreserved_char : ∀ b : Fin 256,
    formUrlUnreserved b.val = true →
    Char.ofNat b.val ≠ '+' ∧ Char.ofNat b.val ≠ '%' ∧
    utf8EncodeChar (Char.ofNat b.val) = [b.val] := by decide

/-- Helper fact: decimal digit characters carry their value and are ASCII
digits. -/
theorem decChar_val : ∀ d : Fin 10,
    (decChar d.val).toNat = 48 + d.val ∧ isDigitChar (decChar d.val) = true ∧
    (decChar d.val).toNat < 128 := by decide

/-- Helper: the UTF-8 bytes of an ASCII character list are just the character
codes. -/
theorem utf8_flatMap_ascii (l : List Char) (h : ∀ c ∈ l, c.toNat < 128) :
    l.flatMap utf8EncodeChar = l.map Char.toNat := by
  induction l with
  | nil => rfl
  | cons c rest ih =>
    have hc : c.toNat < 128 := h c (by simp)
    have : utf8EncodeChar c = [c.toNat] := by
      unfold utf8EncodeChar
      simp only []
      rw [if_pos (by omega)]
    simp [this, ih (fun x hx => h x (by simp [hx]))]

/-- Helper: the percent-decoding core sends the empty input to the empty
output at every fuel. -/
theorem percentDecodeCore_nil (fuel : Nat) : percentDecodeCore fuel [] = [] := by
  cases fuel <;> rfl

/-- Helper: the percent-decoding core is independent of the fuel as long as
the fuel exceeds the input length. -/
theorem percentDecodeCore_fuel (fuel1 : Nat) :
    ∀ (l : List Char) (fuel2 : Nat), l.length < fuel1 → l.length < fuel2 →
    percentDecodeCore fuel1 l = percentDecodeCore fuel2 l := by
  induction fuel1 with
  | zero => intro l fuel2 h1 _; omega
  | succ f1 ih =>
    intro l fuel2 h1 h2
    cases fuel2 with
    | zero => omega
    | succ f2 =>
      cases l with
      | nil => rfl
      | cons c rest =>
        have hr : rest.length < f1 := by simp at h1; omega
        have hr2 : rest.length < f2 := by simp at h2; omega
        by_cases hp : c = '+'
        · simp [percentDecodeCore, hp, ih rest f2 hr hr2]
        · by_cases hpc : c = '%'
          · cases rest with
            | nil => simp [percentDecodeCore, hp, hpc, percentDecodeCore_nil]
            | cons d1 rest1 =>
              cases rest1 with
              | nil =>
                simp [percentDecodeCore, hp, hpc,
                  ih [d1] f2 (by simp at h1; omega) (by simp at h2; omega)]
              | cons d2 rest2 =>
                have hr' : rest2.length < f1 := by simp at h1; omega
                have hr2' : rest2.length < f2 := by simp at h2; omega
                cases hh1 : hexVal d1 with
                | none =>
                  simp [percentDecodeCore, hp, hpc, hh1, ih _ f2 hr hr2]
                | some a =>
                  cases hh2 : hexVal d2 with
                  | none =>
                    simp [percentDecodeCore, hp, hpc, hh1, hh2,
                      ih _ f2 hr hr2]
                  | some b =>
                    simp [percentDecodeCore, hp, hpc, hh1, hh2,
                      ih rest2 f2 hr' hr2']
          · simp [percentDecodeCore, hp, hpc, ih rest f2 hr hr2]

/-- Helper: decoding the encoding of one byte in front of any suffix yields
that byte and proceeds with the suffix. -/
theorem percentDecodeCore_encByte (b : Nat) (hb : b < 256)
    (suffix : List Char) (fuel : Nat)
    (hf : (formEncodeByte b ++ suffix).length < fuel) :
    percentDecodeCore fuel (formEncodeByte b ++ suffix)
    = b :: percentDecodeCore (suffix.length + 1) suffix := by
  cases fuel with
  | zero => omega
  | succ f =>
    have hflen : (formEncodeByte b).length ≥ 1 := by
      unfold formEncodeByte
      by_cases h32 : b = 32 <;> by_cases hun : formUrlUnreserved b = true <;>
        simp [h32, hun]
    have hfs : suffix.length < f := by
      rw [List.length_append] at hf; omega
    by_cases h32 : b = 32
    · subst h32
      rw [show formEncodeByte 32 = ['+'] from rfl, List.singleton_append,
        show percentDecodeCore (f + 1) ('+' :: suffix)
          = 32 :: percentDecodeCore f suffix from by simp [percentDecodeCore],
        percentDecodeCore_fuel f suffix (suffix.length + 1) hfs
          (Nat.lt_succ_self _)]
    · by_cases hun : formUrlUnreserved b = true
      · obtain ⟨hne1, hne2, henc⟩ := formUrlUnreserved_char ⟨b, hb⟩ hun
        have hfe : formEncodeByte b = [Char.ofNat b] := by
          simp [formEncodeByte, h32, hun]
        rw [hfe, List.singleton_append,
          show percentDecodeCore (f + 1) (Char.ofNat b :: suffix)
            = utf8EncodeChar (Char.ofNat b) ++ percentDecodeCore f suffix
            from by simp [percentDecodeCore, hne1, hne2],
          henc, List.singleton_append,
          percentDecodeCore_fuel f suffix (suffix.length + 1) hfs
            (Nat.lt_succ_self _)]
      · have hfe : formEncodeByte b
            = ['%', hexUpperChar (b / 16), hexUpperChar (b % 16)] := by
          simp [formEncodeByte, h32, hun]
        have hv1 : hexVal (hexUpperChar (b / 16)) = some (b / 16) :=
          hexVal_hexUpperChar ⟨b / 16, by omega⟩
        have hv2 : hexVal (hexUpperChar (b % 16)) = some (b % 16) :=
          hexVal_hexUpperChar ⟨b % 16, by omega⟩
        rw [hfe, List.cons_append, List.cons_append, List.singleton_append,
          show percentDecodeCore (f + 1)
              ('%' :: hexUpperChar (b / 16) :: hexUpperChar (b % 16) :: suffix)
            = (16 * (b / 16) + b % 16) :: percentDecodeCore f suffix
            from by simp [percentDecodeCore, hv1, hv2],
          percentDecodeCore_fuel f suffix (suffix.length + 1) hfs
            (Nat.lt_succ_self _),
          show 16 * (b / 16) + b % 16 = b from by omega]

/-- Helper: decoding the encoding of a byte list in front of any suffix
recovers the bytes and proceeds with the suffix. -/
theorem percentDecodeCore_encBytes (bytes : List Nat) :
    (∀ b ∈ bytes, b < 256) → ∀ suffix : List Char,
    percentDecodeCore ((bytes.flatMap formEncodeByte ++ suffix).length + 1)
      (bytes.flatMap formEncodeByte ++ suffix)
    = bytes ++ percentDecodeCore (suffix.length + 1) suffix := by
  induction bytes with
  | nil => intro _ suffix; simp
  | cons b bs ih =>
    intro h suffix
    rw [List.flatMap_cons, List.append_assoc,
      percentDecodeCore_encByte b (h b (by simp)) _ _ (Nat.lt_succ_self _),
      ih (fun x hx => h x (by simp [hx])) suffix]
    rfl

/-- Helper: the UTF-8 decoder inverts the character-code map on ASCII
character lists. -/
theorem utf8DecodeCore_ascii (fuel : Nat) :
    ∀ l : List Char, (∀ c ∈ l, c.toNat < 128) → l.length < fuel →
    utf8DecodeCore fuel (l.map Char.toNat) = some l := by
  induction fuel with
  | zero => intro l _ h; omega
  | succ f ih =>
    intro l h hl
    cases l with
    | nil => rfl
    | cons c rest =>
      have hc : c.toNat < 128 := h c (by simp)
      simp only [List.map_cons, utf8DecodeCore]
      rw [if_pos (by omega : c.toNat < 0x80),
        ih rest (fun x hx => h x (by simp [hx])) (by simp at hl; omega),
        Char.ofNat_toNat]

/-- Helper: UTF-8 decoding inverts the character-code map on ASCII lists. -/
theorem utf8Decode_map_toNat (l : List Char) (h : ∀ c ∈ l, c.toNat < 128) :
    utf8Decode (l.map Char.toNat) = some l := by
  unfold utf8Decode
  rw [List.length_map]
  exact utf8DecodeCore_ascii (l.length + 1) l h (Nat.lt_succ_self _)

/-- Helper: turning the ASCII boolean test into its pointwise statement. -/
theorem isAsciiString_forall (s : String) (hs : isAsciiString s = true) :
    ∀ c ∈ s.data, c.toNat < 128 := by
  intro c hc
  have := List.all_eq_true.mp hs c hc
  simpa using this

/-- Helper: component decoding inverts form-url-encoding on ASCII strings. -/
theorem decodeComponent_formUrlEncode (s : String)
    (hs : isAsciiString s = true) :
    decodeComponent (formUrlEncode s).data = some s := by
  have hsc := isAsciiString_forall s hs
  have hb : utf8Encode s = s.data.map Char.toNat := by
    unfold utf8Encode
    exact utf8_flatMap_ascii s.data hsc
  have h256 : ∀ b ∈ s.data.map Char.toNat, b < 256 := by
    intro b hbm
    rw [List.mem_map] at hbm
    obtain ⟨c, hc, rfl⟩ := hbm
    have := hsc c hc
    omega
  have hdec := percentDecodeCore_encBytes (s.data.map Char.toNat) h256 []
  rw [List.append_nil] at hdec
  unfold decodeComponent percentDecodeBytes
  rw [show (formUrlEncode s).data
      = ((s.data.map Char.toNat).flatMap formEncodeByte) from by
    simp [formUrlEncode, hb]]
  rw [hdec]
  simp only [percentDecodeCore_nil, List.append_nil]
  rw [utf8Decode_map_toNat s.data hsc]

/-- Helper: the ampersand never occurs in a form-url-encoded ASCII string. -/
theorem formUrlEncode_no_amp (s : String) (hs : isAsciiString s = true) :
    '&' ∉ (formUrlEncode s).data := by
  intro hmem
  have hsc := isAsciiString_forall s hs
  rw [show (formUrlEncode s).data
      = (utf8Encode s).flatMap formEncodeByte from rfl,
    List.mem_flatMap] at hmem
  obtain ⟨b, hbm, hcm⟩ := hmem
  have hb : b < 256 := by
    rw [show utf8Encode s = s.data.map Char.toNat from
      utf8_flatMap_ascii s.data hsc, List.mem_map] at hbm
    obtain ⟨c, hc, rfl⟩ := hbm
    have := hsc c hc
    omega
  exact formEncodeByte_no_amp ⟨b, hb⟩ hcm

/-- Helper: the equals sign never occurs in a form-url-encoded ASCII
string. -/
theorem formUrlEncode_no_eq (s : String) (hs : isAsciiString s = true) :
    '=' ∉ (formUrlEncode s).data := by
  intro hmem
  have hsc := isAsciiString_forall s hs
  rw [show (formUrlEncode s).data
      = (utf8Encode s).flatMap formEncodeByte from rfl,
    List.mem_flatMap] at hmem
  obtain ⟨b, hbm, hcm⟩ := hmem
  have hb : b < 256 := by
    rw [show utf8Encode s = s.data.map Char.toNat from
      utf8_flatMap_ascii s.data hsc, List.mem_map] at hbm
    obtain ⟨c, hc, rfl⟩ := hbm
    have := hsc c hc
    omega
  exact formEncodeByte_no_eq ⟨b, hb⟩ hcm

/-- Helper: splitting a chunk with no ampersand yields that single chunk. -/
theorem splitOnAmp_no_amp (a : List Char) (h : '&' ∉ a) :
    splitOnAmp a = [a] := by
  induction a with
  | nil => rfl
  | cons c rest ih =>
    have hc : ¬ c = '&' := fun hh => h (by simp [hh])
    have hr : '&' ∉ rest := fun hm => h (by simp [hm])
    simp [splitOnAmp, hc, ih hr]

/-- Helper: splitting an ampersand-free chunk followed by an ampersand peels
off that chunk. -/
theorem splitOnAmp_append (a : List Char) (h : '&' ∉ a) (rest : List Char) :
    splitOnAmp (a ++ '&' :: rest) = a :: splitOnAmp rest := by
  induction a with
  | nil => simp [splitOnAmp]
  | cons c a2 ih =>
    have hc : ¬ c = '&' := fun hh => h (by simp [hh])
    have hr : '&' ∉ a2 := fun hm => h (by simp [hm])
    rw [List.cons_append]
    simp [splitOnAmp, hc, ih hr]

/-- Helper: splitting an equals-free prefix followed by an equals sign cuts
exactly there. -/
theorem splitOnEq_append (a : List Char) (h : '=' ∉ a) (rest : List Char) :
    splitOnEq (a ++ '=' :: rest) = (a, rest) := by
  induction a with
  | nil => simp [splitOnEq]
  | cons c a2 ih =>
    have hc : ¬ c = '=' := fun hh => h (by simp [hh])
    have hr : '=' ∉ a2 := fun hm => h (by simp [hm])
    rw [List.cons_append]
    simp [splitOnEq, hc, ih hr]

/-- Helper: the decimal-rendering core is independent of the fuel as long as
the fuel exceeds the argument. -/
theorem natToDecimalCore_fuel (fuel1 : Nat) :
    ∀ (n fuel2 : Nat), n < fuel1 → n < fuel2 →
    natToDecimalCore fuel1 n = natToDecimalCore fuel2 n := by
  induction fuel1 with
  | zero => intro n fuel2 h _; omega
  | succ f1 ih =>
    intro n fuel2 h1 h2
    cases fuel2 with
    | zero => omega
    | succ f2 =>
      by_cases hn : n < 10
      · simp [natToDecimalCore, hn]
      · have hd : n / 10 < n := Nat.div_lt_self (by omega) (by omega)
        simp [natToDecimalCore, hn, ih (n / 10) f2 (by omega) (by omega)]

/-- Helper: decimal rendering of a single-digit number. -/
theorem natToDecimal_small (n : Nat) (h : n < 10) :
    (natToDecimal n).data = [decChar n] := by
  simp [natToDecimal, natToDecimalCore, h]

/-- Helper: decimal rendering of a multi-digit number peels the last digit. -/
theorem natToDecimal_large (n : Nat) (h : 10 ≤ n) :
    (natToDecimal n).data = (natToDecimal (n / 10)).data ++ [decChar (n % 10)] := by
  have hd : n / 10 < n := Nat.div_lt_self (by omega) (by omega)
  show natToDecimalCore (n + 1) n = natToDecimalCore (n / 10 + 1) (n / 10) ++ _
  rw [show natToDecimalCore (n + 1) n
      = natToDecimalCore n (n / 10) ++ [decChar (n % 10)] from by
    simp [natToDecimalCore, h, show ¬ n < 10 from by omega]]
  rw [natToDecimalCore_fuel n (n / 10) (n / 10 + 1) (by omega)
    (Nat.lt_succ_self _)]

/-- Helper: every character of a decimal rendering is an ASCII digit. -/
theorem natToDecimal_digits (n : Nat) :
    ∀ c ∈ (natToDecimal n).data, isDigitChar c = true ∧ c.toNat < 128 := by
  induction n using Nat.strong_induction_on with
  | _ n ih =>
    by_cases h : n < 10
    · rw [natToDecimal_small n h]
      intro c hc
      rw [List.mem_singleton] at hc
      subst hc
      have := decChar_val ⟨n, h⟩
      exact ⟨this.2.1, this.2.2⟩
    · rw [natToDecimal_large n (by omega)]
      intro c hc
      rw [List.mem_append] at hc
      cases hc with
      | inl hc =>
        exact ih (n / 10) (Nat.div_lt_self (by omega) (by omega)) c hc
      | inr hc =>
        rw [List.mem_singleton] at hc
        subst hc
        have := decChar_val ⟨n % 10, Nat.mod_lt _ (by omega)⟩
        exact ⟨this.2.1, this.2.2⟩

/-- Helper: decimal renderings are ASCII strings. -/
theorem isAsciiString_natToDecimal (n : Nat) :
    isAsciiString (natToDecimal n) = true := by
  rw [isAsciiString, List.all_eq_true]
  intro c hc
  simpa using (natToDecimal_digits n c hc).2

/-- Helper: the accumulator parse of a decimal rendering followed by any rest
multiplies the accumulator by the rendered power of ten and adds the value. -/
theorem parseDecAcc_natToDecimal (n : Nat) :
    ∀ (acc : Nat) (rest : List Char), ∃ k,
    parseDecAcc ((natToDecimal n).data ++ rest) acc
    = parseDecAcc rest (acc * 10 ^ k + n) := by
  induction n using Nat.strong_induction_on with
  | _ n ih =>
    intro acc rest
    by_cases h : n < 10
    · refine ⟨1, ?_⟩
      rw [natToDecimal_small n h, List.singleton_append]
      have hd := decChar_val ⟨n, h⟩
      rw [show parseDecAcc (decChar n :: rest) acc
          = parseDecAcc rest (acc * 10 + ((decChar n).toNat - 48)) from by
        simp [parseDecAcc, hd.2.1]]
      rw [hd.1]
      congr 1
      have : 48 + n - 48 = n := by omega
      rw [this, pow_one]
    · obtain ⟨k, hk⟩ := ih (n / 10) (Nat.div_lt_self (by omega) (by omega))
        acc ([decChar (n % 10)] ++ rest)
      refine ⟨k + 1, ?_⟩
      rw [natToDecimal_large n (by omega), List.append_assoc, hk,
        List.singleton_append]
      have hd := decChar_val ⟨n % 10, Nat.mod_lt _ (by omega)⟩
      rw [show parseDecAcc (decChar (n % 10) :: rest) (acc * 10 ^ k + n / 10)
          = parseDecAcc rest ((acc * 10 ^ k + n / 10) * 10 +
              ((decChar (n % 10)).toNat - 48)) from by
        simp [parseDecAcc, hd.2.1]]
      congr 1
      rw [hd.1]
      have h1 : 48 + n % 10 - 48 = n % 10 := by omega
      rw [h1]
      have h2 : n / 10 * 10 + n % 10 = n := by omega
      calc (acc * 10 ^ k + n / 10) * 10 + n % 10
          = acc * (10 ^ k * 10) + (n / 10 * 10 + n % 10) := by ring
        _ = acc * 10 ^ (k + 1) + n := by rw [h2, pow_succ]

/-- Helper: parsing a `u64` rendering recovers the value. -/
theorem parseU64_natToDecimal (n : Nat) (h : n < 2 ^ 64) :
    parseU64 (natToDecimal n) = some n := by
  have hne : (natToDecimal n).data ≠ [] := by
    by_cases h10 : n < 10
    · rw [natToDecimal_small n h10]; simp
    · rw [natToDecimal_large n (by omega)]; simp
  obtain ⟨k, hk⟩ := parseDecAcc_natToDecimal n 0 []
  rw [List.append_nil] at hk
  unfold parseU64
  rw [if_neg (by simp [hne]), hk]
  simp only [parseDecAcc, Nat.zero_mul, Nat.zero_add]
  rw [if_pos (by omega)]

/-- Helper: the characters of a serialized pair are the encoded key, an
equals sign, then the encoded value. -/
theorem formPair_data (k v : String) :
    (formPair k v).data
    = (formUrlEncode k).data ++ '=' :: (formUrlEncode v).data := by
  show ((formUrlEncode k ++ "=") ++ formUrlEncode v).data = _
  rw [String.data_append, String.data_append]
  simp

/-- Helper: a serialized pair of ASCII strings contains no ampersand. -/
theorem formPair_no_amp (k v : String) (hk : isAsciiString k = true)
    (hv : isAsciiString v = true) : '&' ∉ (formPair k v).data := by
  rw [formPair_data]
  intro hmem
  rw [List.mem_append] at hmem
  cases hmem with
  | inl hmem => exact formUrlEncode_no_amp k hk hmem
  | inr hmem =>
    rw [List.mem_cons] at hmem
    cases hmem with
    | inl hmem => exact absurd hmem (by decide)
    | inr hmem => exact formUrlEncode_no_amp v hv hmem

/-- Helper: a serialized pair splits at its equals sign into the encoded key
and encoded value. -/
theorem splitOnEq_formPair (k v : String) (hk : isAsciiString k = true) :
    splitOnEq (formPair k v).data
    = ((formUrlEncode k).data, (formUrlEncode v).data) := by
  rw [formPair_data]
  exact splitOnEq_append _ (formUrlEncode_no_eq k hk) _

/-- ASCII condition on a list of key-value pairs. -/
def asciiPairs (ps : List (String × String)) : Prop :=
  ∀ p ∈ ps, isAsciiString p.1 = true ∧ isAsciiString p.2 = true

/-- Helper: splitting and decoding the ampersand-joined serialization of a
nonempty ASCII pair list recovers exactly those pairs. -/
theorem decodePairs_joinAmp (ps : List (String × String)) :
    ∀ p : String × String, asciiPairs (p :: ps) →
    decodePairs (splitOnAmp
      (joinAmp ((p :: ps).map fun q => formPair q.1 q.2)).data)
    = some (p :: ps) := by
  induction ps with
  | nil =>
    intro p h
    obtain ⟨hk, hv⟩ := h p (by simp)
    rw [show (([p].map fun q => formPair q.1 q.2)) = [formPair p.1 p.2]
      from rfl]
    rw [show joinAmp [formPair p.1 p.2] = formPair p.1 p.2 from rfl]
    rw [splitOnAmp_no_amp _ (formPair_no_amp p.1 p.2 hk hv)]
    simp [decodePairs, splitOnEq_formPair p.1 p.2 hk,
      decodeComponent_formUrlEncode _ hk, decodeComponent_formUrlEncode _ hv]
  | cons q ps2 ih =>
    intro p h
    obtain ⟨hk, hv⟩ := h p (by simp)
    rw [List.map_cons, List.map_cons,
      show joinAmp (formPair p.1 p.2 :: formPair q.1 q.2 ::
          (ps2.map fun r => formPair r.1 r.2))
        = formPair p.1 p.2 ++ "&" ++
            joinAmp (formPair q.1 q.2 :: (ps2.map fun r => formPair r.1 r.2))
        from rfl,
      String.data_append, String.data_append]
    rw [List.append_assoc,
      show ("&" : String).data ++ (joinAmp (formPair q.1 q.2 ::
          (ps2.map fun r => formPair r.1 r.2))).data
        = '&' :: (joinAmp (formPair q.1 q.2 ::
            (ps2.map fun r => formPair r.1 r.2))).data from rfl,
      splitOnAmp_append _ (formPair_no_amp p.1 p.2 hk hv)]
    have ih2 := ih q (fun r hr => h r (List.mem_cons_of_mem p hr))
    rw [List.map_cons] at ih2
    simp [decodePairs, splitOnEq_formPair p.1 p.2 hk,
      decodeComponent_formUrlEncode _ hk, decodeComponent_formUrlEncode _ hv,
      ih2]

/-- C7: serializing an exchange request whose string fields are ASCII (the
permitted-character condition; the client id is a `u64`) to form-url-encoding
and decoding that body back recovers every field identically — the encoding
is lossless. -/
theorem access_token_request_form_roundtrip (r : AccessTokenExchangeRequest)
    (hcid : r.client_id < 2 ^ 64)
    (hcs : isAsciiString r.client_secret = true)
    (hco : isAsciiString r.code = true)
    (hgt : isAsciiString r.grant_type = true)
    (hru : isAsciiString r.redirect_uri = true) :
    serde_urlencoded_from_str (serde_urlencoded_to_string r) = some r := by
  have hps := decodePairs_joinAmp
    [("client_secret", r.client_secret), ("code", r.code),
     ("grant_type", r.grant_type), ("redirect_uri", r.redirect_uri)]
    ("client_id", natToDecimal r.client_id)
    (by
      intro p hp
      rw [List.mem_cons, List.mem_cons, List.mem_cons, List.mem_cons] at hp
      rcases hp with rfl | rfl | rfl | rfl | hp
      · exact ⟨rfl, isAsciiString_natToDecimal _⟩
      · exact ⟨rfl, hcs⟩
      · exact ⟨rfl, hco⟩
      · exact ⟨rfl, hgt⟩
      · rw [List.mem_singleton] at hp
        subst hp
        exact ⟨rfl, hru⟩)
  rw [show (([("client_id", natToDecimal r.client_id),
      ("client_secret", r.client_secret), ("code", r.code),
      ("grant_type", r.grant_type), ("redirect_uri", r.redirect_uri)].map
        fun q => formPair q.1 q.2))
    = [formPair "client_id" (natToDecimal r.client_id),
       formPair "client_secret" r.client_secret,
       formPair "code" r.code,
       formPair "grant_type" r.grant_type,
       formPair "redirect_uri" r.redirect_uri] from rfl] at hps
  unfold serde_urlencoded_from_str serde_urlencoded_to_string
  rw [hps]
  show assignFields none none none none none
    [("client_id", natToDecimal r.client_id),
     ("client_secret", r.client_secret), ("code", r.code),
     ("grant_type", r.grant_type), ("redirect_uri", r.redirect_uri)]
    = some r
  rw [show assignFields none none none none none
      [("client_id", natToDecimal r.client_id),
       ("client_secret", r.client_secret), ("code", r.code),
       ("grant_type", r.grant_type), ("redirect_uri", r.redirect_uri)]
    = (match parseU64 (natToDecimal r.client_id) with
       | some n => some ⟨n, r.client_secret, r.code, r.grant_type,
           r.redirect_uri⟩
       | none => none) from rfl]
  rw [parseU64_natToDecimal r.client_id hcid]

/-- Witness for C7 at a concrete request whose secret holds spaces,
ampersands, equals, percent and plus characters. -/
theorem access_token_request_form_roundtrip_witness :
    ((AccessTokenExchangeRequest.new 249608697955745802
        "dd99 op&Ua=gs7%SQE+x" "user code here"
        "https://myapplication.website").client_id < 2 ^ 64 ∧
     isAsciiString (AccessTokenExchangeRequest.new 249608697955745802
        "dd99 op&Ua=gs7%SQE+x" "user code here"
        "https://myapplication.website").client_secret = true ∧
     isAsciiString (AccessTokenExchangeRequest.new 249608697955745802
        "dd99 op&Ua=gs7%SQE+x" "user code here"
        "https://myapplication.website").code = true ∧
     isAsciiString (AccessTokenExchangeRequest.new 249608697955745802
        "dd99 op&Ua=gs7%SQE+x" "user code here"
        "https://myapplication.website").grant_type = true ∧
     isAsciiString (AccessTokenExchangeRequest.new 249608697955745802
        "dd99 op&Ua=gs7%SQE+x" "user code here"
        "https://myapplication.website").redirect_uri = true) ∧
    serde_urlencoded_from_str (serde_urlencoded_to_string
      (AccessTokenExchangeRequest.new 249608697955745802
        "dd99 op&Ua=gs7%SQE+x" "user code here"
        "https://myapplication.website"))
    = some (AccessTokenExchangeRequest.new 249608697955745802
        "dd99 op&Ua=gs7%SQE+x" "user code here"
        "https://myapplication.website") :=
  ⟨⟨by decide, by decide, by decide, by decide, by decide⟩,
   access_token_request_form_roundtrip _ (by decide) (by decide) (by decide)
     (by decide) (by decide)⟩
